import Mathlib

/-!
# Verification of the `lnk-rs` shell-link decoder

A shallow embedding of the binary decoder of the `lnk` crate (Windows
Shell Link / `.lnk` parser).  Byte streams are modelled as `List Nat`
(each entry one byte), stream positions as `Nat`, and every reader is a
function from `(data, position)` to an `Outcome` that distinguishes
ordinary decode errors (`binread`/`packed_struct` errors, surfaced as
`Result::Err` in Rust) from panics (slice-bound violations, `panic!`,
and arithmetic overflow aborts).  Machine integers are `Nat` with
explicit `% 2^w` wherever the Rust code can wrap (release-profile
wrapping semantics).
-/

namespace Lnk

/-- Error kinds surfaced as `Result::Err` by the Rust decoder:
`ioError` for end-of-stream, `assertFail` for `binread` assert
failures, `badEnum` for out-of-domain enum reads, `notAShellLink` for
`Error::NotAShellLinkError`, `packingError` for `packed_struct`
failures. -/
inductive LnkError : Type where
  | ioError : LnkError
  | assertFail : LnkError
  | badEnum : LnkError
  | notAShellLink : LnkError
  | packingError : LnkError
deriving DecidableEq, Repr

/-- Result of running a decoder: a value, a recoverable error, or a
process abort (out-of-bounds slice index, `panic!`, overflow abort). -/
inductive Outcome (α : Type) : Type where
  | ok : α → Outcome α
  | err : LnkError → Outcome α
  | panic : Outcome α
deriving DecidableEq, Repr

/-- Byte at position `pos` of the stream (u8, hence `% 256`); reads
past the end never happen unguarded in the embedding, `0` is a dummy. -/
def byteAt (d : List Nat) (pos : Nat) : Nat := d.getD pos 0 % 256

/-- Little-endian value of `n` bytes starting at `pos`. -/
def leRead (d : List Nat) (pos : Nat) : Nat → Nat
  | 0 => 0
  | n + 1 => byteAt d pos + 256 * leRead d (pos + 1) n

/-- The raw byte slice `d[pos..pos+n]`. -/
def bytesAt (d : List Nat) (pos n : Nat) : List Nat := (d.drop pos).take n

/-- `binread` read of an `n`-byte little-endian unsigned integer:
end-of-stream is an `Io` error. -/
def readUInt (n : Nat) (d : List Nat) (pos : Nat) : Outcome (Nat × Nat) :=
  if pos + n ≤ d.length then .ok (leRead d pos n, pos + n) else .err .ioError

/-- `binread`-style `read_exact` of `n` raw bytes. -/
def readBytes (n : Nat) (d : List Nat) (pos : Nat) : Outcome (List Nat × Nat) :=
  if pos + n ≤ d.length then .ok (bytesAt d pos n, pos + n) else .err .ioError

theorem leRead_lt (d : List Nat) (pos : Nat) : ∀ n, leRead d pos n < 256 ^ n := by
  intro n
  induction n generalizing pos with
  | zero => simp [leRead]
  | succ k ih =>
    have hb : byteAt d pos < 256 := Nat.mod_lt _ (by norm_num)
    have hr := ih (pos + 1)
    have h256 : (256 : Nat) ^ (k + 1) = 256 * 256 ^ k := by ring
    show byteAt d pos + 256 * leRead d (pos + 1) k < 256 ^ (k + 1)
    omega

/-! ## ItemID and IdList (`src/itemid.rs`, `src/idlist.rs`)

`ItemID`: a `u16` size field (asserted `size == 0 || size > 2`)
followed, when `size > 0`, by `size - 2` bytes of opaque data. -/

structure ItemID : Type where
  size : Nat
  data : List Nat
deriving DecidableEq, Repr

/-- `ItemID`'s derived `BinRead`: read `size : u16` with
`assert(size == 0 || size > 2)`, then `size - 2` data bytes when
`size > 0`. -/
def itemIDRead (d : List Nat) (pos : Nat) : Outcome (ItemID × Nat) :=
  match readUInt 2 d pos with
  | .ok (size, p) =>
    if size = 0 ∨ size > 2 then
      if size > 0 then
        match readBytes (size - 2) d p with
        | .ok (bs, p') => .ok (⟨size, bs⟩, p')
        | .err e => .err e
        | .panic => .panic
      else .ok (⟨size, []⟩, p)
    else .err .assertFail
  | .err e => .err e
  | .panic => .panic

theorem itemIDRead_bounds {d : List Nat} {pos : Nat} {it : ItemID} {p' : Nat}
    (h : itemIDRead d pos = .ok (it, p')) :
    pos + 2 ≤ p' ∧ p' ≤ d.length ∧ it.size < 65536 := by
  have hsz := leRead_lt d pos 2
  unfold itemIDRead at h
  split at h
  case h_2 => exact absurd h (by simp)
  case h_3 => exact absurd h (by simp)
  case h_1 size p heq =>
    unfold readUInt at heq
    split at heq
    case isFalse => exact absurd heq (by simp)
    case isTrue hle =>
      simp only [Outcome.ok.injEq, Prod.mk.injEq] at heq
      obtain ⟨rfl, rfl⟩ := heq
      split at h
      case isFalse => exact absurd h (by simp)
      case isTrue ha =>
        split at h
        case isFalse hp =>
          simp only [Outcome.ok.injEq, Prod.mk.injEq] at h
          obtain ⟨hit, rfl⟩ := h
          refine ⟨by omega, by omega, ?_⟩
          rw [← hit]
          exact (by norm_num at hsz ⊢; omega : leRead d pos 2 < 65536)
        case isTrue hp =>
          split at h
          case h_2 => exact absurd h (by simp)
          case h_3 => exact absurd h (by simp)
          case h_1 bs p' heq2 =>
            unfold readBytes at heq2
            split at heq2
            case isFalse => exact absurd heq2 (by simp)
            case isTrue hle2 =>
              simp only [Outcome.ok.injEq, Prod.mk.injEq] at heq2
              obtain ⟨rfl, rfl⟩ := heq2
              simp only [Outcome.ok.injEq, Prod.mk.injEq] at h
              obtain ⟨hit, rfl⟩ := h
              refine ⟨by omega, by omega, ?_⟩
              rw [← hit]
              exact (by norm_num at hsz ⊢; omega : leRead d pos 2 < 65536)

/-- The `IdList` reading loop of `src/idlist.rs` (`BinRead for IdList`,
argument `bytes_to_read : u16`): while the budget is positive, error
out when it is below 2, read an `ItemID`, stop when the budget is
exactly 2 and the item's size is 0, otherwise subtract the size from
the budget (u16 wrapping, release profile) and append the item. -/
def idListLoop (d : List Nat) (bytesToRead : Nat) (pos : Nat) :
    Outcome (List ItemID × Nat) :=
  if bytesToRead = 0 then .ok ([], pos)
  else if bytesToRead < 2 then .err .assertFail
  else
    match h : itemIDRead d pos with
    | .ok (item, p') =>
      if bytesToRead = 2 ∧ item.size = 0 then .ok ([], p')
      else
        match idListLoop d ((bytesToRead + 65536 - item.size) % 65536) p' with
        | .ok (rest, q) => .ok (item :: rest, q)
        | .err e => .err e
        | .panic => .panic
    | .err e => .err e
    | .panic => .panic
termination_by d.length - pos
decreasing_by
  have := itemIDRead_bounds h
  omega

/-- Non-dependent unfolding equation of the `IdList` reading loop. -/
theorem idListLoop_eq (d : List Nat) (b p : Nat) :
    idListLoop d b p =
      (if b = 0 then .ok ([], p)
       else if b < 2 then .err .assertFail
       else
         match itemIDRead d p with
         | .ok (item, p') =>
           if b = 2 ∧ item.size = 0 then .ok ([], p')
           else
             match idListLoop d ((b + 65536 - item.size) % 65536) p' with
             | .ok (rest, q) => .ok (item :: rest, q)
             | .err e => .err e
             | .panic => .panic
         | .err e => .err e
         | .panic => .panic) := by
  rw [idListLoop.eq_def]
  cases hit : itemIDRead d p <;> simp [hit]

/-- Push one decoded `ItemID` in front of the rest of the loop's
result (the `item_id_list.push(item_id)`-and-continue step). -/
def consOutcome (it : ItemID) : Outcome (List ItemID × Nat) → Outcome (List ItemID × Nat)
  | .ok (rest, q) => .ok (it :: rest, q)
  | .err e => .err e
  | .panic => .panic

/-- `LinkTargetIdList` (`src/linktarget.rs`): a `u16` size followed by
the stored IdList read with that size as its byte budget. -/
structure LinkTargetIdList : Type where
  size : Nat
  item_id_list : List ItemID
deriving DecidableEq, Repr

def linkTargetIdListRead (d : List Nat) (pos : Nat) :
    Outcome (LinkTargetIdList × Nat) :=
  match readUInt 2 d pos with
  | .ok (size, p) =>
    match idListLoop d size p with
    | .ok (l, q) => .ok (⟨size, l⟩, q)
    | .err e => .err e
    | .panic => .panic
  | .err e => .err e
  | .panic => .panic

/-! ## String codecs (`src/strings/`)

Decoded strings are modelled as their code-unit sequences
(`List Nat`): one unit per byte for an 8-bit code page (single-byte
decoding in `encoding_rs` is total, so the unit values are immaterial
to control flow), one `u16` unit per pair of bytes for UTF-16LE. -/

/-- `StringEncoding` (`src/strings/string_encoding.rs`): either the
caller-supplied 8-bit code page or UTF-16LE. -/
inductive StringEncoding : Type where
  | codePage : Nat → StringEncoding
  | unicode : StringEncoding
deriving DecidableEq, Repr

/-- Bit `i` of the `LinkFlags` word.  Bit numbers follow
`src/header.rs`: 0 `HAS_LINK_TARGET_ID_LIST`, 1 `HAS_LINK_INFO`,
2 `HAS_NAME`, 3 `HAS_RELATIVE_PATH`, 4 `HAS_WORKING_DIR`,
5 `HAS_ARGUMENTS`, 6 `HAS_ICON_LOCATION`, 7 `IS_UNICODE`. -/
def linkFlag (flags : Nat) (i : Nat) : Bool := flags.testBit i

/-- `StringEncoding::from` (`src/strings/string_encoding.rs`): Unicode
iff `IS_UNICODE` is set, otherwise the caller's default code page. -/
def stringEncodingFrom (linkFlags : Nat) (defaultCodepage : Nat) : StringEncoding :=
  if linkFlag linkFlags 7 then .unicode else .codePage defaultCodepage

/-- Group a little-endian byte sequence into 16-bit code units
(`UTF_16LE.decode`'s unit boundary; input length is always even where
this is used). -/
def utf16Units : List Nat → List Nat
  | [] => []
  | [a] => [a % 256]
  | a :: b :: rest => (a % 256 + 256 * (b % 256)) :: utf16Units rest

/-- `encoding_rs`'s UTF-16LE validity: a high surrogate must be
followed by a low surrogate and a low surrogate may not stand alone
(`had_errors` of `UTF_16LE.decode`). -/
def utf16Valid : List Nat → Bool
  | [] => true
  | u :: rest =>
    if 0xD800 ≤ u ∧ u ≤ 0xDBFF then
      match rest with
      | [] => false
      | v :: rest' => if 0xDC00 ≤ v ∧ v ≤ 0xDFFF then utf16Valid rest' else false
    else if 0xDC00 ≤ u ∧ u ≤ 0xDFFF then false
    else utf16Valid rest

/-- `SizedString`'s `read_options` (`src/strings/sized_string.rs`):
read a `u16` count; in code-page mode read exactly `count` bytes (the
single-byte decode never fails); in UTF-16LE mode allocate and read
`count * 2` bytes — the multiplication is performed in `u16`, so it
wraps modulo `2^16` (release profile; debug builds abort), then decode
and fail on invalid UTF-16. -/
def sizedStringRead (enc : StringEncoding) (d : List Nat) (pos : Nat) :
    Outcome (List Nat × Nat) :=
  match readUInt 2 d pos with
  | .ok (count, p) =>
    match enc with
    | .codePage _ =>
      match readBytes count d p with
      | .ok (bs, p') => .ok (bs.map (· % 256), p')
      | .err e => .err e
      | .panic => .panic
    | .unicode =>
      match readBytes ((count * 2) % 65536) d p with
      | .ok (bs, p') =>
        if utf16Valid (utf16Units bs) then .ok (utf16Units bs, p')
        else .err .assertFail
      | .err e => .err e
      | .panic => .panic
  | .err e => .err e
  | .panic => .panic

/-- Code-page branch of `NullTerminatedString::read_options`
(`src/strings/null_terminated_string.rs`): read bytes up to and
including the first NUL byte, returning only the bytes before it
(the single-byte decode never fails); end-of-stream before a NUL is
an `Io` error. -/
def ntBytesRead (d : List Nat) (pos : Nat) : Outcome (List Nat × Nat) :=
  let rest := (d.drop pos).map (· % 256)
  let s := rest.takeWhile (fun b => b ≠ 0)
  if s.length < rest.length then .ok (s, pos + s.length + 1)
  else .err .ioError

/-- Unicode branch of `NullTerminatedString::read_options`: `binread`'s
`NullWideString`, reading 16-bit units up to and including the first
zero unit (conversion to `String` is lossy and never fails);
end-of-stream before a zero unit — including a lone trailing byte —
is an `Io` error. -/
def ntWideRead (d : List Nat) (pos : Nat) : Outcome (List Nat × Nat) :=
  let units := utf16Units (bytesAt d pos (2 * ((d.length - pos) / 2)))
  let s := units.takeWhile (fun u => u ≠ 0)
  if s.length < units.length then .ok (s, pos + 2 * s.length + 2)
  else .err .ioError

def ntStringRead (enc : StringEncoding) (d : List Nat) (pos : Nat) :
    Outcome (List Nat × Nat) :=
  match enc with
  | .codePage _ => ntBytesRead d pos
  | .unicode => ntWideRead d pos

/-! ## StringData (`src/stringdata.rs`) -/

/-- The five optional `StringData` slots. -/
structure StringData : Type where
  name_string : Option (List Nat)
  relative_path : Option (List Nat)
  working_dir : Option (List Nat)
  command_line_arguments : Option (List Nat)
  icon_location : Option (List Nat)
deriving DecidableEq, Repr

/-- One `StringData` field: present (and read as a `SizedString` with
the encoding chosen by `StringEncoding::from`) iff its flag bit is set. -/
def stringDataSlot (flagBit : Bool) (enc : StringEncoding) (d : List Nat)
    (pos : Nat) : Outcome (Option (List Nat) × Nat) :=
  if flagBit then
    match sizedStringRead enc d pos with
    | .ok (s, p) => .ok (some s, p)
    | .err e => .err e
    | .panic => .panic
  else .ok (none, pos)

/-- `StringData`'s derived `BinRead` (`src/stringdata.rs`): the five
slots in order `name`, `relative_path`, `working_dir`,
`command_line_arguments`, `icon_location`, each gated by its
`LinkFlags` bit and decoded with `StringEncoding::from(link_flags,
default_codepage)`. -/
def stringDataRead (linkFlags defaultCodepage : Nat) (d : List Nat)
    (pos : Nat) : Outcome (StringData × Nat) :=
  let enc := stringEncodingFrom linkFlags defaultCodepage
  match stringDataSlot (linkFlag linkFlags 2) enc d pos with
  | .ok (name, p1) =>
    match stringDataSlot (linkFlag linkFlags 3) enc d p1 with
    | .ok (rel, p2) =>
      match stringDataSlot (linkFlag linkFlags 4) enc d p2 with
      | .ok (wd, p3) =>
        match stringDataSlot (linkFlag linkFlags 5) enc d p3 with
        | .ok (args, p4) =>
          match stringDataSlot (linkFlag linkFlags 6) enc d p4 with
          | .ok (icon, p5) => .ok (⟨name, rel, wd, args, icon⟩, p5)
          | .err e => .err e
          | .panic => .panic
        | .err e => .err e
        | .panic => .panic
      | .err e => .err e
      | .panic => .panic
    | .err e => .err e
    | .panic => .panic
  | .err e => .err e
  | .panic => .panic

/-! ## FILETIME (`src/filetime.rs`) -/

/-- `FileTime` keeps the raw `u64` tick count alongside the
`WinTimestamp` built from the same bytes. -/
structure FileTime : Type where
  raw : Nat
deriving DecidableEq, Repr

/-- `FileTime`'s `read_options`: read a `u64` and build a
`WinTimestamp` from its little-endian bytes (`WinTimestamp::new` on an
8-byte buffer always succeeds, a dependency fact taken from its
interface). -/
def fileTimeRead (d : List Nat) (pos : Nat) : Outcome (FileTime × Nat) :=
  match readUInt 8 d pos with
  | .ok (raw, p) => .ok (⟨raw⟩, p)
  | .err e => .err e
  | .panic => .panic

/-- `From<FileTime> for u64`: the stored raw value. -/
def fileTimeToU64 (ft : FileTime) : Nat := ft.raw

/-- Modelled from the spec: the calendar time associated with a
FILETIME — the glossary defines it as 1601-01-01T00:00:00Z plus the
tick count times 100 ns; we represent that instant by its total
nanosecond distance from the epoch (the concrete civil-calendar
rendering lives in the external `winstructs`/`chrono` crates, which
are not part of this repository's sources). -/
def fileTimeNanosSinceEpoch (ft : FileTime) : Nat := 100 * ft.raw

/-- The 8-byte little-endian encoding of a `u64`. -/
def le64Bytes (t : Nat) : List Nat :=
  [t % 256, t / 256 % 256, t / 256 ^ 2 % 256, t / 256 ^ 3 % 256,
   t / 256 ^ 4 % 256, t / 256 ^ 5 % 256, t / 256 ^ 6 % 256, t / 256 ^ 7 % 256]

/-! ## ShellLinkHeader (`src/header.rs`) -/

/-- The fixed LinkCLSID `{00021401-0000-0000-C000-000000000046}` in
packet representation, as the `u128` little-endian constant of
`src/header.rs`. -/
def CLSID : Nat := 0x46000000000000c00000000000021401

/-- All defined `LinkFlags` bits (27 low bits). -/
def linkFlagsMask : Nat := 0x07FFFFFF

/-- All defined `FileAttributeFlags` bits (15 low bits). -/
def fileAttributeFlagsMask : Nat := 0x7FFF

/-- `ShowCommand` domain: `ShowNormal = 1`, `ShowMaximized = 3`,
`ShowMinNoActive = 7`. -/
def showCommandValid (v : Nat) : Bool := v = 1 ∨ v = 3 ∨ v = 7

/-- `HotkeyKey` domain (`src/header.rs`): `NoKeyAssigned = 0`, digits
`0x30–0x39`, letters `0x41–0x5A`, `F1–F24 = 0x70–0x87`,
`NumLock = 0x90`, `ScrollLock = 0x91`. -/
def hotkeyKeyValid (k : Nat) : Bool :=
  k = 0 ∨ (0x30 ≤ k ∧ k ≤ 0x39) ∨ (0x41 ≤ k ∧ k ≤ 0x5A) ∨
    (0x70 ≤ k ∧ k ≤ 0x87) ∨ k = 0x90 ∨ k = 0x91

/-- `ShellLinkHeader` (`src/header.rs`): raw integer fields; flag
words are kept as validated raw bit patterns, `icon_index` as the raw
`u32` two's-complement word. -/
structure ShellLinkHeader : Type where
  header_size : Nat
  link_clsid : Nat
  link_flags : Nat
  file_attributes : Nat
  creation_time : FileTime
  access_time : FileTime
  write_time : FileTime
  file_size : Nat
  icon_index : Nat
  show_command : Nat
  hotkey_key : Nat
  hotkey_modifiers : Nat
deriving DecidableEq, Repr

/-- `ShellLinkHeader`'s derived `BinRead` (`src/header.rs`): reads
`header_size` (unchecked), `link_clsid` with
`assert(link_clsid == CLSID)`, the two flag words through
`binread_flags!` (`from_bits`: fail on any undefined bit — the defined
bits are the low 27 resp. 15, so validity is `raw < mask + 1`), three
FILETIMEs, `file_size`, `icon_index`, the `ShowCommand` and
`HotkeyKey` enums (fail outside their domains) and the
`HotkeyModifiers` byte (defined bits `0x7`).  It consumes `0x42`
bytes; the 10 reserved bytes are not part of the struct. -/
def shellLinkHeaderRead (d : List Nat) (pos : Nat) :
    Outcome (ShellLinkHeader × Nat) :=
  match readUInt 4 d pos with
  | .ok (hsize, p1) =>
    match readUInt 16 d p1 with
    | .ok (clsid, p2) =>
      if clsid = CLSID then
        match readUInt 4 d p2 with
        | .ok (flags, p3) =>
          if flags ≤ linkFlagsMask then
            match readUInt 4 d p3 with
            | .ok (attrs, p4) =>
              if attrs ≤ fileAttributeFlagsMask then
                match fileTimeRead d p4 with
                | .ok (ct, p5) =>
                  match fileTimeRead d p5 with
                  | .ok (at_, p6) =>
                    match fileTimeRead d p6 with
                    | .ok (wt, p7) =>
                      match readUInt 4 d p7 with
                      | .ok (fsize, p8) =>
                        match readUInt 4 d p8 with
                        | .ok (icon, p9) =>
                          match readUInt 4 d p9 with
                          | .ok (showCmd, p10) =>
                            if showCommandValid showCmd then
                              match readUInt 1 d p10 with
                              | .ok (key, p11) =>
                                if hotkeyKeyValid key then
                                  match readUInt 1 d p11 with
                                  | .ok (mods, p12) =>
                                    if mods ≤ 0x7 then
                                      .ok (⟨hsize, clsid, flags, attrs, ct,
                                            at_, wt, fsize, icon, showCmd, key,
                                            mods⟩, p12)
                                    else .err .assertFail
                                  | .err e => .err e
                                  | .panic => .panic
                                else .err .badEnum
                              | .err e => .err e
                              | .panic => .panic
                            else .err .badEnum
                          | .err e => .err e
                          | .panic => .panic
                        | .err e => .err e
                        | .panic => .panic
                      | .err e => .err e
                      | .panic => .panic
                    | .err e => .err e
                    | .panic => .panic
                  | .err e => .err e
                  | .panic => .panic
                | .err e => .err e
                | .panic => .panic
              else .err .assertFail
            | .err e => .err e
            | .panic => .panic
          else .err .assertFail
        | .err e => .err e
        | .panic => .panic
      else .err .assertFail
    | .err e => .err e
    | .panic => .panic
  | .err e => .err e
  | .panic => .panic

/-! ## LinkInfo (`src/linkinfo.rs`) -/

/-- `CurrentOffset`'s `read_options`: the current stream position as a
`u32`; `try_into().expect("invalid offset")` aborts at `2^64`-scale
positions. -/
def currentOffset (pos : Nat) : Outcome Nat :=
  if pos < 4294967296 then .ok pos else .panic

/-- The seek target `SeekFrom::Start(base + offset)` where the
addition is performed on `u32` (wrapping, release profile). -/
def seekTo (base off : Nat) : Nat := (base + off) % 4294967296

/-- The system default code page used by the `StringEncoding::CodePage`
reads inside LinkInfo (Windows-1252 in `encoding_rs` terms). -/
def systemDefaultCodePage : Nat := 1252

/-- `LinkInfoFlags::VOLUME_ID_AND_LOCAL_BASE_PATH` (bit 0). -/
def flagVIDLBP (f : Nat) : Bool := f.testBit 0

/-- `LinkInfoFlags::COMMON_NETWORK_RELATIVE_LINK_AND_PATH_SUFFIX`
(bit 1). -/
def flagCNRL (f : Nat) : Bool := f.testBit 1

/-- An optional `u32` field gated by a `#[br(if(...))]` condition. -/
def readOptU32 (present : Bool) (d : List Nat) (pos : Nat) :
    Outcome (Option Nat × Nat) :=
  if present then
    match readUInt 4 d pos with
    | .ok (v, p) => .ok (some v, p)
    | .err e => .err e
    | .panic => .panic
  else .ok (none, pos)

/-- The assert on the optional Unicode offsets of LinkInfo: when the
field is present, the owning flag must be set and the offset strictly
between 0 and `link_info_size`; an absent field passes. -/
def uOffAssert (flagSet : Bool) (size : Nat) : Option Nat → Bool
  | none => true
  | some o => flagSet && decide (0 < o) && decide (o < size)

/-- `DriveType` domain: `0x00`–`0x06`. -/
def driveTypeValid (v : Nat) : Bool := v ≤ 6

/-- `NetworkProviderType` domain (`src/linkinfo.rs`):
`0x1a0000`–`0x430000` in steps of `0x10000`, except `0x280000`. -/
def networkProviderTypeValid (v : Nat) : Bool :=
  v % 65536 = 0 ∧ 0x1a ≤ v / 65536 ∧ v / 65536 ≤ 0x43 ∧ v / 65536 ≠ 0x28

/-- `VolumeID` (`src/linkinfo.rs`). -/
structure VolumeID : Type where
  start_offset : Nat
  volume_id_size : Nat
  drive_type : Nat
  drive_serial_number : Nat
  volume_label_offset : Nat
  volume_label_offset_unicode : Option Nat
  volume_label : List Nat
deriving DecidableEq, Repr

/-- `VolumeID`'s derived `BinRead`: size (`> 0x10`), drive type,
serial, label offset (`< size`); when the label offset equals `0x14` a
Unicode label offset follows and supersedes it; the label string is
read at `start + resolved offset`; the cursor then lands at
`start + volume_id_size`. -/
def volumeIDRead (d : List Nat) (pos : Nat) : Outcome (VolumeID × Nat) :=
  match currentOffset pos with
  | .ok B =>
    match readUInt 4 d pos with
    | .ok (size, p1) =>
      if size > 0x10 then
        match readUInt 4 d p1 with
        | .ok (dt, p2) =>
          if driveTypeValid dt then
            match readUInt 4 d p2 with
            | .ok (serial, p3) =>
              match readUInt 4 d p3 with
              | .ok (vlo, p4) =>
                if vlo < size then
                  match readOptU32 (vlo = 0x14) d p4 with
                  | .ok (vlou, _) =>
                    match ntStringRead
                        (if vlou.isSome then .unicode
                         else .codePage systemDefaultCodePage)
                        d (seekTo B (vlou.getD vlo)) with
                    | .ok (label, _) =>
                      .ok (⟨B, size, dt, serial, vlo, vlou, label⟩,
                           seekTo B size)
                    | .err e => .err e
                    | .panic => .panic
                  | .err e => .err e
                  | .panic => .panic
                else .err .assertFail
              | .err e => .err e
              | .panic => .panic
            | .err e => .err e
            | .panic => .panic
          else .err .badEnum
        | .err e => .err e
        | .panic => .panic
      else .err .assertFail
    | .err e => .err e
    | .panic => .panic
  | .err e => .err e
  | .panic => .panic

/-- `CommonNetworkRelativeLink` (`src/linkinfo.rs`). -/
structure CommonNetworkRelativeLink : Type where
  start_offset : Nat
  common_network_relative_link_size : Nat
  flags : Nat
  net_name_offset : Nat
  device_name_offset : Nat
  network_provider_type : Option Nat
  net_name_offset_unicode : Option Nat
  device_name_offset_unicode : Option Nat
  net_name : List Nat
  device_name : List Nat
deriving DecidableEq, Repr

/-- `CommonNetworkRelativeLink`'s derived `BinRead`: size (`≥ 0x14`),
flags (2 defined bits), net/device name offsets (`< size`), the
provider type word (always read and checked against the enum domain,
kept only when `VALID_NET_TYPE` is set), Unicode offset variants
present iff `net_name_offset > 0x14`, then the two strings at their
resolved offsets; the cursor then lands at `start + size`. -/
def commonNetworkRelativeLinkRead (d : List Nat) (pos : Nat) :
    Outcome (CommonNetworkRelativeLink × Nat) :=
  match currentOffset pos with
  | .ok B =>
    match readUInt 4 d pos with
    | .ok (size, p1) =>
      if size ≥ 0x14 then
        match readUInt 4 d p1 with
        | .ok (fl, p2) =>
          if fl ≤ 3 then
            match readUInt 4 d p2 with
            | .ok (nno, p3) =>
              if nno < size then
                match readUInt 4 d p3 with
                | .ok (dno, p4) =>
                  if dno < size then
                    match readUInt 4 d p4 with
                    | .ok (npt, p5) =>
                      if networkProviderTypeValid npt then
                        match readOptU32 (nno > 0x14) d p5 with
                        | .ok (nnou, p6) =>
                          match readOptU32 (nno > 0x14) d p6 with
                          | .ok (dnou, _) =>
                            match ntStringRead
                                (if nnou.isSome then .unicode
                                 else .codePage systemDefaultCodePage)
                                d (seekTo B (nnou.getD nno)) with
                            | .ok (nn, _) =>
                              match ntStringRead
                                  (if dnou.isSome then .unicode
                                   else .codePage systemDefaultCodePage)
                                  d (seekTo B (dnou.getD dno)) with
                              | .ok (dn, _) =>
                                .ok (⟨B, size, fl, nno, dno,
                                      if fl.testBit 1 then some npt else none,
                                      nnou, dnou, nn, dn⟩, seekTo B size)
                              | .err e => .err e
                              | .panic => .panic
                            | .err e => .err e
                            | .panic => .panic
                          | .err e => .err e
                          | .panic => .panic
                        | .err e => .err e
                        | .panic => .panic
                      else .err .badEnum
                    | .err e => .err e
                    | .panic => .panic
                  else .err .assertFail
                | .err e => .err e
                | .panic => .panic
              else .err .assertFail
            | .err e => .err e
            | .panic => .panic
          else .err .assertFail
        | .err e => .err e
        | .panic => .panic
      else .err .assertFail
    | .err e => .err e
    | .panic => .panic
  | .err e => .err e
  | .panic => .panic

/-- `LinkInfo` (`src/linkinfo.rs`). -/
structure LinkInfo : Type where
  start_offset : Nat
  link_info_size : Nat
  link_info_header_size : Nat
  link_info_flags : Nat
  volume_id_offset : Nat
  local_base_path_offset : Nat
  common_network_relative_link_offset : Nat
  common_path_suffix_offset : Nat
  local_base_path_offset_unicode : Option Nat
  common_path_suffix_offset_unicode : Option Nat
  volume_id : Option VolumeID
  local_base_path : Option (List Nat)
  common_network_relative_link : Option CommonNetworkRelativeLink
  common_path_suffix : List Nat
  local_base_path_unicode : Option (List Nat)
deriving DecidableEq, Repr

/-- The offset-soundness property of §8 for a decoded LinkInfo: each
offset either equals 0 with its owning flag clear, or lies strictly
between 0 and `link_info_size`; `common_path_suffix_offset` has no
owning flag (the structure is always present), so its first disjunct
is plain zero. -/
def offsetSound (info : LinkInfo) : Prop :=
  ((info.volume_id_offset = 0 ∧ flagVIDLBP info.link_info_flags = false) ∨
    (0 < info.volume_id_offset ∧
      info.volume_id_offset < info.link_info_size)) ∧
  ((info.local_base_path_offset = 0 ∧
      flagVIDLBP info.link_info_flags = false) ∨
    (0 < info.local_base_path_offset ∧
      info.local_base_path_offset < info.link_info_size)) ∧
  ((info.common_network_relative_link_offset = 0 ∧
      flagCNRL info.link_info_flags = false) ∨
    (0 < info.common_network_relative_link_offset ∧
      info.common_network_relative_link_offset < info.link_info_size)) ∧
  (info.common_path_suffix_offset = 0 ∨
    (0 < info.common_path_suffix_offset ∧
      info.common_path_suffix_offset < info.link_info_size)) ∧
  (∀ o, info.local_base_path_offset_unicode = some o →
    (o = 0 ∧ flagVIDLBP info.link_info_flags = false) ∨
      (0 < o ∧ o < info.link_info_size)) ∧
  (∀ o, info.common_path_suffix_offset_unicode = some o →
    (o = 0 ∧ flagCNRL info.link_info_flags = false) ∨
      (0 < o ∧ o < info.link_info_size))

/-- A `#[br(if(cond), seek_before(...))]`-gated substructure field:
seek to `skipPos`, and read with `r` only when the condition holds. -/
def gateRead {α : Type} (present : Bool) (skipPos : Nat)
    (r : Outcome (α × Nat)) : Outcome (Option α × Nat) :=
  if present then
    match r with
    | .ok (v, p) => .ok (some v, p)
    | .err e => .err e
    | .panic => .panic
  else .ok (none, skipPos)

/-- The offset-chased tail of the LinkInfo read: the five seek-gated
payload fields of `src/linkinfo.rs` in field order (`volume_id`,
`local_base_path`, `common_network_relative_link`,
`common_path_suffix`, `local_base_path_unicode`) and the final
`_next_offset` seek to `start + link_info_size`. -/
def linkInfoReadTail (d : List Nat) (B size hsize fl vio lbo cnrlo cpso : Nat)
    (lbou cpsou : Option Nat) : Outcome (LinkInfo × Nat) :=
  match gateRead (flagVIDLBP fl) (seekTo B vio)
      (volumeIDRead d (seekTo B vio)) with
  | .ok (vid, _) =>
    match gateRead (flagVIDLBP fl) (seekTo B (lbou.getD lbo))
        (ntStringRead
          (if lbou.isSome then .unicode else .codePage systemDefaultCodePage)
          d (seekTo B (lbou.getD lbo))) with
    | .ok (lbp, _) =>
      match gateRead (flagCNRL fl) (seekTo B cnrlo)
          (commonNetworkRelativeLinkRead d (seekTo B cnrlo)) with
      | .ok (cnrl, _) =>
        match ntStringRead
            (if cpsou.isSome then .unicode
             else .codePage systemDefaultCodePage)
            d (seekTo B (cpsou.getD cpso)) with
        | .ok (cps, _) =>
          match gateRead (flagVIDLBP fl) (seekTo B (lbou.getD lbo))
              (ntStringRead
                (if lbou.isSome then .unicode
                 else .codePage systemDefaultCodePage)
                d (seekTo B (lbou.getD lbo))) with
          | .ok (lbpu, _) =>
            .ok (⟨B, size, hsize, fl, vio, lbo, cnrlo, cpso, lbou, cpsou,
                  vid, lbp, cnrl, cps, lbpu⟩, seekTo B size)
          | .err e => .err e
          | .panic => .panic
        | .err e => .err e
        | .panic => .panic
      | .err e => .err e
      | .panic => .panic
    | .err e => .err e
    | .panic => .panic
  | .err e => .err e
  | .panic => .panic

/-- `LinkInfo`'s derived `BinRead` (`src/linkinfo.rs`): the fixed
prefix with its offset asserts, the optional Unicode offsets (present
iff `link_info_header_size ≥ 0x24`, with their asserts), then the
offset-chased substructures via `linkInfoReadTail`; the `_next_offset`
seek lands the cursor at `start + link_info_size` (`u32` addition). -/
def linkInfoRead (d : List Nat) (pos : Nat) : Outcome (LinkInfo × Nat) :=
  match currentOffset pos with
  | .ok B =>
    match readUInt 4 d pos with
    | .ok (size, p1) =>
      match readUInt 4 d p1 with
      | .ok (hsize, p2) =>
        match readUInt 4 d p2 with
        | .ok (fl, p3) =>
          if fl ≤ 3 then
            match readUInt 4 d p3 with
            | .ok (vio, p4) =>
              if (if flagVIDLBP fl then 0 < vio ∧ vio < size else vio = 0) then
                match readUInt 4 d p4 with
                | .ok (lbo, p5) =>
                  if (if flagVIDLBP fl then 0 < lbo ∧ lbo < size
                      else lbo = 0) then
                    match readUInt 4 d p5 with
                    | .ok (cnrlo, p6) =>
                      if (if flagCNRL fl then 0 < cnrlo ∧ cnrlo < size
                          else cnrlo = 0) then
                        match readUInt 4 d p6 with
                        | .ok (cpso, p7) =>
                          if cpso < size then
                            match readOptU32 (hsize ≥ 0x24) d p7 with
                            | .ok (lbou, p8) =>
                              if uOffAssert (flagVIDLBP fl) size lbou then
                                match readOptU32 (hsize ≥ 0x24) d p8 with
                                | .ok (cpsou, _) =>
                                  if uOffAssert (flagCNRL fl) size cpsou then
                                    linkInfoReadTail d B size hsize fl vio lbo
                                      cnrlo cpso lbou cpsou
                                  else .err .assertFail
                                | .err e => .err e
                                | .panic => .panic
                              else .err .assertFail
                            | .err e => .err e
                            | .panic => .panic
                          else .err .assertFail
                        | .err e => .err e
                        | .panic => .panic
                      else .err .assertFail
                    | .err e => .err e
                    | .panic => .panic
                  else .err .assertFail
                | .err e => .err e
                | .panic => .panic
              else .err .assertFail
            | .err e => .err e
            | .panic => .panic
          else .err .assertFail
        | .err e => .err e
        | .panic => .panic
      | .err e => .err e
      | .panic => .panic
    | .err e => .err e
    | .panic => .panic
  | .err e => .err e
  | .panic => .panic

/-! ## ExtraData (`src/extradata/mod.rs`, `src/lib.rs`) -/

/-- The eleven known ExtraData block kinds.  Except for
`vistaAndAboveIdListProps`, each constructor keeps the raw body bytes
(`block_size − 8` bytes after the size and signature words): no claim
observes a decoded block's fields, and the decoded strings/integers
are total functions of the body, so the decode's
success/error/panic classification is what the per-kind functions
below model exactly. -/
inductive ExtraDataBlock : Type where
  | consoleProps : List Nat → ExtraDataBlock
  | consoleFeProps : List Nat → ExtraDataBlock
  | darwinProps : List Nat → ExtraDataBlock
  | environmentProps : List Nat → ExtraDataBlock
  | iconEnvironmentProps : List Nat → ExtraDataBlock
  | knownFolderProps : List Nat → ExtraDataBlock
  | propertyStoreProps : List Nat → ExtraDataBlock
  | shimProps : List Nat → ExtraDataBlock
  | specialFolderProps : List Nat → ExtraDataBlock
  | trackerProps : List Nat → ExtraDataBlock
  | vistaAndAboveIdListProps : List ItemID → ExtraDataBlock
deriving DecidableEq, Repr

/-- `EnvironmentVariableDataBlock::unpack_from_slice`
(`src/extradata/environment_variable_data.rs`): slices `src[0..260]`
and `src[260..520]` — an out-of-bounds panic whenever the body is
shorter than 520 bytes — and otherwise always succeeds
(`String::from_utf8_lossy` and the NUL trim are total); there is no
size-equality check. -/
def environmentVariableUnpack (body : List Nat) : Outcome ExtraDataBlock :=
  if body.length < 520 then .panic else .ok (.environmentProps body)

/-- `ConsoleDataBlock`'s decode (`src/extradata/console_data.rs`):
the block implements `PackedStruct` with `ByteArray = [u8; 196]`, so
the `unpack_from_slice` used by the dispatcher is `packed_struct`'s
blanket slice adapter, which rejects any slice whose length differs
from 196 with a `BufferSizeMismatch` error (dependency interface);
`ConsoleDataBlock::unpack` itself cannot fail (`from_bits_truncate`
and fixed-offset reads inside the 196-byte array). -/
def consoleUnpack (body : List Nat) : Outcome ExtraDataBlock :=
  if body.length = 196 then .ok (.consoleProps body) else .err .packingError

/-- `ShimDataBlock::unpack_from_slice` (`src/extradata/shim_data.rs`):
`String::from_utf8_lossy` over the whole body — succeeds on every
body, with no length check at all. -/
def shimUnpack (body : List Nat) : Outcome ExtraDataBlock :=
  .ok (.shimProps body)

/-- `PropertyStoreDataBlock::unpack_from_slice`
(`src/extradata/property_store_data.rs`): stores the body verbatim —
succeeds on every body. -/
def propertyStoreUnpack (body : List Nat) : Outcome ExtraDataBlock :=
  .ok (.propertyStoreProps body)

/-- The item loop of `VistaAndAboveIdListDataBlock::unpack_from_slice`
(`src/extradata/vista_and_above_id_list_data.rs`): the terminator
check reads a `u16` at `src[offset..]` (panic when fewer than 2 bytes
remain there), while the ItemID itself is read from `inner_data`,
which starts at `src[8..]` and advances by each item's size — so item
`k` sits at `8 + offset`.  `ItemID::unpack_from_slice`
(`crate::linktarget::ItemID`) is modelled from the spec's ItemID wire
format, matching the in-source `From<&[u8]> for ItemID`: a `u16` size
then the `size − 2` data bytes via `&data[2..size]`, which panics
when `size < 2` or `size` exceeds the remaining slice. -/
def vistaLoop (body : List Nat) (offset : Nat) : Outcome (List ItemID) :=
  if body.length < offset + 2 then .panic
  else if leRead body offset 2 = 0 then .ok []
  else if body.length < 8 + offset + 2 then .panic
  else
    if h : leRead body (8 + offset) 2 < 2 ∨
        8 + offset + leRead body (8 + offset) 2 > body.length then .panic
    else
      match vistaLoop body (offset + leRead body (8 + offset) 2) with
      | .ok rest =>
        .ok (⟨leRead body (8 + offset) 2,
              bytesAt body (8 + offset + 2) (leRead body (8 + offset) 2 - 2)⟩
          :: rest)
      | .err e => .err e
      | .panic => .panic
termination_by body.length - offset
decreasing_by
  push_neg at h
  omega

/-- `VistaAndAboveIdListDataBlock::unpack_from_slice`: the statement
`let mut inner_data = &src[8..]` runs before the loop, so a body
shorter than 8 bytes panics at once; then the item loop runs. -/
def vistaAndAboveUnpack (body : List Nat) : Outcome ExtraDataBlock :=
  if body.length < 8 then .panic
  else
    match vistaLoop body 0 with
    | .ok l => .ok (.vistaAndAboveIdListProps l)
    | .err e => .err e
    | .panic => .panic

/-- Modelled from the spec: the `PackedStructSlice` implementations of
`TrackerDataBlock`, `ConsoleFEDataBlock`, `SpecialFolderDataBlock`,
`DarwinDataBlock`, `IconEnvironmentDataBlock` and
`KnownFolderDataBlock` that `ExtraData::unpack_from_slice` invokes
are not among the sources — those six block files only carry
`From<&[u8]>` constructors; §4.6 step 3 and the §3 table define the
missing decoders: a fixed-size kind rejects unless `block_size`
(i.e. body length + 8) equals its declared total size.  The argument
`total` is the kind's declared total size. -/
def fixedSizeUnpack (total : Nat) (mk : List Nat → ExtraDataBlock)
    (body : List Nat) : Outcome ExtraDataBlock :=
  if body.length + 8 = total then .ok (mk body) else .err .packingError

/-- The signature dispatch of `ExtraData::unpack_from_slice`
(`src/extradata/mod.rs`), one arm per known signature, applied to the
body slice `&src[8..size]`. -/
def extraDataDispatch (sig : Nat) (body : List Nat) :
    Option (Outcome ExtraDataBlock) :=
  if sig = 0xa0000001 then some (environmentVariableUnpack body)
  else if sig = 0xa0000002 then some (consoleUnpack body)
  else if sig = 0xa0000003 then some (fixedSizeUnpack 0x60 .trackerProps body)
  else if sig = 0xa0000004 then
    some (fixedSizeUnpack 0xC .consoleFeProps body)
  else if sig = 0xa0000005 then
    some (fixedSizeUnpack 0x10 .specialFolderProps body)
  else if sig = 0xa0000006 then some (fixedSizeUnpack 0x314 .darwinProps body)
  else if sig = 0xa0000007 then
    some (fixedSizeUnpack 0x314 .iconEnvironmentProps body)
  else if sig = 0xa0000008 then some (shimUnpack body)
  else if sig = 0xa0000009 then some (propertyStoreUnpack body)
  else if sig = 0xa000000a then some (vistaAndAboveUnpack body)
  else if sig = 0xa000000b then
    some (fixedSizeUnpack 0x1C .knownFolderProps body)
  else none

/-- The eleven signatures of the dispatch table of
`ExtraData::unpack_from_slice`. -/
def knownExtraDataSig (sig : Nat) : Bool :=
  sig = 0xa0000001 ∨ sig = 0xa0000002 ∨ sig = 0xa0000003 ∨
  sig = 0xa0000004 ∨ sig = 0xa0000005 ∨ sig = 0xa0000006 ∨
  sig = 0xa0000007 ∨ sig = 0xa0000008 ∨ sig = 0xa0000009 ∨
  sig = 0xa000000a ∨ sig = 0xa000000b

/-- `ExtraData::unpack_from_slice` (`src/extradata/mod.rs`) applied to
the tail slice `&data[c..]`: `LE::read_u32` of the size word (panic
below 4 available bytes), `LE::read_u32` of the signature at `[4..]`
(panic below 8), the body slice `&src[8..size]` (panic when
`size < 8` or `size` exceeds the slice), then the signature dispatch —
a signature outside the eleven known values is
`panic!("Invalid extra data type!")`, not an error value. -/
def extraDataUnpack (d : List Nat) (c : Nat) : Outcome ExtraDataBlock :=
  if d.length < c + 4 then .panic
  else
    let size := leRead d c 4
    if d.length < c + 8 then .panic
    else
      let sig := leRead d (c + 4) 4
      if size < 8 ∨ c + size > d.length then .panic
      else
        match extraDataDispatch sig (bytesAt d (c + 8) (size - 8)) with
        | some r => r
        | none => .panic

theorem extraDataUnpack_ok_bounds {d : List Nat} {c : Nat} {b : ExtraDataBlock}
    (h : extraDataUnpack d c = .ok b) :
    8 ≤ leRead d c 4 ∧ c + leRead d c 4 ≤ d.length := by
  unfold extraDataUnpack at h
  split at h
  · exact absurd h (by simp)
  · split at h
    · exact absurd h (by simp)
    · dsimp only at h
      split at h
      · exact absurd h (by simp)
      · next hsz =>
        push_neg at hsz
        omega

/-- The ExtraData reading loop of `ShellLink::open` (`src/lib.rs`),
step-indexed by fuel: stop normally when fewer than 4 bytes remain
(the head slice `&data[cursor..]` panics when the cursor has run past
the end) or when the size word is below 4; otherwise unpack one block
and advance the cursor by the size word. -/
def extraLoopF : Nat → List Nat → Nat →
    Option (Outcome (List ExtraDataBlock × Nat))
  | 0, _, _ => none
  | fuel + 1, d, c =>
    if c > d.length then some .panic
    else if d.length - c < 4 then some (.ok ([], c))
    else
      let query := leRead d c 4
      if query < 4 then some (.ok ([], c))
      else
        match extraDataUnpack d c with
        | .ok b =>
          match extraLoopF fuel d (c + query) with
          | some (.ok (rest, p)) => some (.ok (b :: rest, p))
          | some (.err e) => some (.err e)
          | some .panic => some .panic
          | none => none
        | .err e => some (.err e)
        | .panic => some .panic

/-! ## The `ShellLink::open` orchestrator (`src/lib.rs`) -/

/-- The decoded `ShellLink` value. -/
structure ShellLinkModel : Type where
  header : ShellLinkHeader
  linktarget_id_list : Option LinkTargetIdList
  link_info : Option LinkInfo
  name_string : Option (List Nat)
  relative_path : Option (List Nat)
  working_dir : Option (List Nat)
  command_line_arguments : Option (List Nat)
  icon_location : Option (List Nat)
  extra_data : List ExtraDataBlock
deriving DecidableEq, Repr

/-- The slice `&data[c..]`: a slice index past the end is a panic. -/
def sliceFrom (d : List Nat) (c : Nat) : Outcome (List Nat) :=
  if c ≤ d.length then .ok (d.drop c) else .panic

/-- Modelled from the spec: the packed-struct
`ShellLinkHeader::unpack_from_slice` invoked by `ShellLink::open` is
not among the sources (the in-tree `src/header.rs` implements the
`binread` codec instead); §4.2 step 1 has it reject with
`NotAShellLink` when the header size word or the CLSID mismatches,
then decode the same header fields with §4.1's strict flag/enum
validation. -/
def shellLinkHeaderUnpack (d : List Nat) : Outcome ShellLinkHeader :=
  if leRead d 0 4 = 0x4C ∧ leRead d 4 16 = CLSID then
    match shellLinkHeaderRead d 0 with
    | .ok (h, _) => .ok h
    | .err e => .err e
    | .panic => .panic
  else .err .notAShellLink

/-- Modelled from the spec: `stringdata::parse_string` as invoked by
`ShellLink::open` is not among the sources (the in-tree
`src/stringdata.rs` implements the `binread` codec instead); §4.5/§3
have it read a `u16` count from the head of the slice, then `count`
bytes (8-bit code page) or `2·count` bytes (UTF-16LE) according to
`IS_UNICODE`, returning the consumed length and the decoded string;
reads beyond the slice are slice-bound panics. -/
def parseStringSpec (d : List Nat) (flags : Nat) : Outcome (Nat × List Nat) :=
  if d.length < 2 then .panic
  else
    let count := leRead d 0 2
    if linkFlag flags 7 then
      if d.length < 2 + 2 * count then .panic
      else .ok (2 + 2 * count, utf16Units (bytesAt d 2 (2 * count)))
    else
      if d.length < 2 + count then .panic
      else .ok (2 + count, bytesAt d 2 count)

/-- One optional StringData step of `ShellLink::open`: when the flag
bit is set, parse a string from `&data[cursor..]` and advance the
cursor by the consumed length. -/
def openStringStep (data : List Nat) (flags bit cursor : Nat) :
    Outcome (Option (List Nat) × Nat) :=
  if linkFlag flags bit then
    match sliceFrom data cursor with
    | .ok s =>
      match parseStringSpec s flags with
      | .ok (len, str) => .ok (some str, cursor + len)
      | .err e => .err e
      | .panic => .panic
    | .err e => .err e
    | .panic => .panic
  else .ok (none, cursor)

/-- The LinkTargetIdList step of `ShellLink::open`. -/
def openIdListStep (data : List Nat) (flags : Nat) :
    Outcome (Option LinkTargetIdList × Nat) :=
  if linkFlag flags 0 then
    match sliceFrom data 0x4C with
    | .ok s =>
      match linkTargetIdListRead s 0 with
      | .ok (l, _) => .ok (some l, 0x4C + l.size + 2)
      | .err e => .err e
      | .panic => .panic
    | .err e => .err e
    | .panic => .panic
  else .ok (none, 0x4C)

/-- The LinkInfo step of `ShellLink::open`. -/
def openLinkInfoStep (data : List Nat) (flags cursor : Nat) :
    Outcome (Option LinkInfo × Nat) :=
  if linkFlag flags 1 then
    match sliceFrom data cursor with
    | .ok s =>
      match linkInfoRead s 0 with
      | .ok (info, _) => .ok (some info, cursor + info.link_info_size)
      | .err e => .err e
      | .panic => .panic
    | .err e => .err e
    | .panic => .panic
  else .ok (none, cursor)

/-- `ShellLink::open` (`src/lib.rs`): read the whole stream, reject
inputs shorter than `0x4C` with `NotAShellLink`, unpack the header
from the first `0x4C` bytes, then — honoring the header flag bits —
the LinkTargetIdList (advancing by its size word plus 2), the LinkInfo
(advancing by `link_info_size`), the five StringData slots, and
finally the ExtraData loop. -/
def shellLinkOpen (data : List Nat) : Outcome ShellLinkModel :=
  if data.length < 0x4C then .err .notAShellLink
  else
    match shellLinkHeaderUnpack (data.take 0x4C) with
    | .ok header =>
      let flags := header.link_flags
      match openIdListStep data flags with
      | .ok (idlist, c1) =>
        match openLinkInfoStep data flags c1 with
        | .ok (info, c2) =>
          match openStringStep data flags 2 c2 with
          | .ok (name, c3) =>
            match openStringStep data flags 3 c3 with
            | .ok (rel, c4) =>
              match openStringStep data flags 4 c4 with
              | .ok (wd, c5) =>
                match openStringStep data flags 5 c5 with
                | .ok (args, c6) =>
                  match openStringStep data flags 6 c6 with
                  | .ok (icon, c7) =>
                    match extraLoopF (data.length + 2) data c7 with
                    | some (.ok (blocks, _)) =>
                      .ok (⟨header, idlist, info, name, rel, wd, args, icon,
                            blocks⟩)
                    | some (.err e) => .err e
                    | some .panic => .panic
                    | none => .panic
                  | .err e => .err e
                  | .panic => .panic
                | .err e => .err e
                | .panic => .panic
              | .err e => .err e
              | .panic => .panic
            | .err e => .err e
            | .panic => .panic
          | .err e => .err e
          | .panic => .panic
        | .err e => .err e
        | .panic => .panic
      | .err e => .err e
      | .panic => .panic
    | .err e => .err e
    | .panic => .panic

/-! ## Concrete inputs used by the witnesses and counterexamples -/

/-- The fixed CLSID in its 16-byte little-endian wire form. -/
def clsidBytes : List Nat :=
  [0x01, 0x14, 0x02, 0x00, 0, 0, 0, 0, 0xC0, 0, 0, 0, 0, 0, 0, 0x46]

/-- A 66-byte header whose `header_size` word is `0` but whose CLSID
is the fixed constant; every other field is in-domain. -/
def headerSizeZeroBytes : List Nat :=
  [0, 0, 0, 0] ++ clsidBytes ++ [0, 0, 0, 0] ++ [0, 0, 0, 0] ++
  List.replicate 24 0 ++ [0, 0, 0, 0] ++ [0, 0, 0, 0] ++ [1, 0, 0, 0] ++ [0, 0]

/-- A full 80-byte `.lnk` input: a valid 76-byte header with no flag
set, followed by the four bytes `[8,0,0,0]` — an ExtraData size word
of 8 with no further bytes behind it. -/
def truncatedExtraInput : List Nat :=
  [0x4C, 0, 0, 0] ++ clsidBytes ++ [0, 0, 0, 0] ++ [0, 0, 0, 0] ++
  List.replicate 24 0 ++ [0, 0, 0, 0] ++ [0, 0, 0, 0] ++ [1, 0, 0, 0] ++
  [0, 0] ++ List.replicate 10 0 ++ [8, 0, 0, 0]

/-- A minimal well-formed LinkInfo: `link_info_size = 0x1E`,
`link_info_header_size = 0x1C`, no flags, all gated offsets zero,
`common_path_suffix_offset = 0x1C` pointing at an empty
NUL-terminated string. -/
def linkInfoGoodBytes : List Nat :=
  [0x1E, 0, 0, 0, 0x1C, 0, 0, 0, 0, 0, 0, 0, 0, 0, 0, 0, 0, 0, 0, 0,
   0, 0, 0, 0, 0x1C, 0, 0, 0, 0]

/-- Four junk bytes followed by a LinkInfo with
`link_info_size = 0xFFFFFFFF`, decoded from stream offset 4, so the
final `u32` seek target `4 + 0xFFFFFFFF` wraps. -/
def linkInfoWrapBytes : List Nat :=
  [0, 0, 0, 0] ++
  [0xFF, 0xFF, 0xFF, 0xFF, 0x1C, 0, 0, 0, 0, 0, 0, 0, 0, 0, 0, 0,
   0, 0, 0, 0, 0, 0, 0, 0, 0x1C, 0, 0, 0] ++ [0]

/-- An ExtraData block with `block_size = 12` and the unknown
signature `0xA0000000`. -/
def unknownSigBlockBytes : List Nat :=
  [0x0C, 0, 0, 0, 0, 0, 0, 0xA0, 1, 2, 3, 4]

/-- An ExtraData block with `block_size = 16` and the unknown
signature `0xA000000C`. -/
def unknownSigBlockBytes2 : List Nat :=
  [0x10, 0, 0, 0, 0x0C, 0, 0, 0xA0, 1, 2, 3, 4, 5, 6, 7, 8]

/-! ## Claim theorems -/

/-- C8: evaluation of `SizedString::read_options` at the failing
input.  The spec says a UTF-16LE SizedString reads exactly `2·count`
bytes for every `u16` count; at `count = 0x8000` the code computes the
buffer length `count * 2` in `u16`, which wraps to `0`, so it reads 0
bytes (`2·count = 65536` would be required) and succeeds on an empty
remainder instead of failing — in a debug build the multiplication
aborts. -/
theorem c8_sizedstring_unicode_overflow :
    sizedStringRead .unicode [0, 128] 0 = .ok ([], 2) ∧
    leRead [0, 128] 0 2 = 0x8000 ∧
    (0x8000 * 2) % 65536 = 0 ∧ 2 * 0x8000 = 65536 := by decide

/-- C10: `ShellLink::open` is not total into `Result`: on this
concrete 80-byte input (valid header, no optional sections, then an
ExtraData size word of 8 with only 4 bytes remaining) the ExtraData
loop passes its `len ≥ 4` check, reads `block_size = 8 ≥ 4`, and
`ExtraData::unpack_from_slice` then panics reading the signature from
the 4-byte slice — neither a `ShellLink` nor an `Error` is
returned. -/
theorem c10_open_not_total :
    shellLinkOpen truncatedExtraInput = .panic := by decide

/-- C2 counterexample: a block whose signature `0xA0000000` is outside
the eleven known values makes `ExtraData::unpack_from_slice` panic
(`panic!("Invalid extra data type!")`) — the decode aborts the process
instead of returning the recoverable error value the claim
describes, and no lenient skip happens. -/
theorem c2_counterexample :
    extraDataUnpack unknownSigBlockBytes 0 = .panic ∧
    (∀ e : LnkError, extraDataUnpack unknownSigBlockBytes 0 ≠ .err e) := by
  constructor
  · decide
  · intro e
    cases e <;> decide

/-- C4 counterexample: with byte budget 5 over the stream
`[5,0,1,2,3]`, the single ItemID of size 5 drives the remaining
budget from 5 to 0 and the loop returns the list successfully —
no terminator was ever seen, whereas the claim requires a
`TruncatedIdList` failure when the budget drops below 2 before a
terminator; and with budget 4 over `[0,0,0,0]`, the size-0 ItemID
does not terminate the list (the claim says it does whenever the
budget permits more bytes): it is pushed, the budget stays 4, and the
decode ends in an end-of-stream error. -/
theorem c4_counterexample :
    idListLoop [5, 0, 1, 2, 3] 5 0 = .ok ([⟨5, [1, 2, 3]⟩], 5) ∧
    idListLoop [0, 0, 0, 0] 4 0 = .err .ioError := by
  have hi : itemIDRead [5, 0, 1, 2, 3] 0 = .ok (⟨5, [1, 2, 3]⟩, 5) := by decide
  have h0 : itemIDRead [0, 0, 0, 0] 0 = .ok (⟨0, []⟩, 2) := by decide
  have h2 : itemIDRead [0, 0, 0, 0] 2 = .ok (⟨0, []⟩, 4) := by decide
  have h4 : itemIDRead [0, 0, 0, 0] 4 = .err .ioError := by decide
  constructor
  · rw [idListLoop_eq]
    norm_num [hi]
    rw [idListLoop_eq]
    norm_num
  · rw [idListLoop_eq]
    norm_num [h0]
    rw [idListLoop_eq]
    norm_num [h2]
    rw [idListLoop_eq]
    norm_num [h4]

/-- C5 counterexample: a successful LinkInfo decode beginning at
stream offset `B = 4` with `link_info_size = L = 0xFFFFFFFF` leaves
the cursor at `(B + L) mod 2^32 = 3`, not at `B + L = 4294967299`:
the `_next_offset` seek target `*start_offset + link_info_size` is a
`u32` addition, which wraps (release profile; a debug build aborts). -/
theorem c5_counterexample :
    linkInfoRead linkInfoWrapBytes 4 =
      .ok (⟨4, 4294967295, 0x1C, 0, 0, 0, 0, 0x1C, none, none,
            none, none, none, [], none⟩, 3) ∧
    (3 : Nat) ≠ 4 + 4294967295 := by decide

/-- C1 counterexample: the `binread` codec of `src/header.rs` decodes
this 66-byte header whose `header_size` word is `0` — only the CLSID
is asserted — so a successful decode can return `header_size ≠ 0x4C`,
and a header-size mismatch is not rejected at all (with
`NotAShellLink` or otherwise). -/
theorem c1_counterexample :
    shellLinkHeaderRead headerSizeZeroBytes 0 =
      .ok (⟨0, CLSID, 0, 0, ⟨0⟩, ⟨0⟩, ⟨0⟩, 0, 0, 1, 0, 0⟩, 66) ∧
    (0 : Nat) ≠ 0x4C := by decide

/-! ### ExtraData loop lemmas -/

theorem extraLoopF_isSome (d : List Nat) :
    ∀ fuel c, d.length + 1 - c < fuel → (extraLoopF fuel d c).isSome := by
  intro fuel
  induction fuel with
  | zero => intro c h; omega
  | succ n ih =>
    intro c h
    simp only [extraLoopF]
    split
    · simp
    · split
      · simp
      · split
        · simp
        · cases hu : extraDataUnpack d c with
          | ok b =>
            have hb := extraDataUnpack_ok_bounds hu
            have hlt : d.length + 1 - (c + leRead d c 4) < n := by omega
            have hs := ih (c + leRead d c 4) hlt
            cases hrec : extraLoopF n d (c + leRead d c 4) with
            | none => rw [hrec] at hs; simp at hs
            | some r => cases r <;> simp [hrec]
          | err e => simp
          | panic => simp

theorem extraLoopF_ok_stop (d : List Nat) :
    ∀ fuel c bs p, extraLoopF fuel d c = some (.ok (bs, p)) →
      p ≤ d.length ∧ (d.length - p < 4 ∨ leRead d p 4 < 4) := by
  intro fuel
  induction fuel with
  | zero => intro c bs p h; simp [extraLoopF] at h
  | succ n ih =>
    intro c bs p h
    simp only [extraLoopF] at h
    split at h
    · simp at h
    · split at h
      · next h1 h2 =>
        simp only [Option.some.injEq, Outcome.ok.injEq, Prod.mk.injEq] at h
        obtain ⟨-, rfl⟩ := h
        exact ⟨by omega, Or.inl h2⟩
      · split at h
        · next hq =>
          next h1 h2 =>
          simp only [Option.some.injEq, Outcome.ok.injEq, Prod.mk.injEq] at h
          obtain ⟨-, rfl⟩ := h
          exact ⟨by omega, Or.inr hq⟩
        · split at h
          case h_1 b hu =>
            split at h
            case h_1 rest p2 hrec =>
              simp only [Option.some.injEq, Outcome.ok.injEq,
                Prod.mk.injEq] at h
              obtain ⟨-, rfl⟩ := h
              exact ih _ _ _ hrec
            case h_2 => exact absurd h (by simp)
            case h_3 => exact absurd h (by simp)
            case h_4 => exact absurd h (by simp)
          case h_2 => exact absurd h (by simp)
          case h_3 => exact absurd h (by simp)

theorem extraLoopF_stop (d : List Nat) (c : Nat) (hc : c ≤ d.length)
    (h : d.length - c < 4 ∨ leRead d c 4 < 4) :
    extraLoopF (d.length + 2) d c = some (.ok ([], c)) := by
  simp only [extraLoopF]
  rcases h with h | h
  · rw [if_neg (by omega), if_pos h]
  · by_cases h4 : d.length - c < 4
    · rw [if_neg (by omega), if_pos h4]
    · rw [if_neg (by omega), if_neg h4]
      rw [if_pos h]

/-- C7: the ExtraData reading loop of `ShellLink::open` terminates on
every input — with fuel `data.length + 2` it never runs out — a
normal (non-error, non-panic) stop happens only at a point where
fewer than 4 bytes remain or where the `block_size` word read there
is below 4, and whenever one of those two conditions holds at the
cursor the loop stops there at once: a zero-sized or otherwise small
block is a terminator, never an infinite loop. -/
theorem c7_extradata_loop_termination (d : List Nat) (c : Nat) :
    (extraLoopF (d.length + 2) d c).isSome ∧
    (∀ bs p, extraLoopF (d.length + 2) d c = some (.ok (bs, p)) →
      p ≤ d.length ∧ (d.length - p < 4 ∨ leRead d p 4 < 4)) ∧
    (c ≤ d.length → d.length - c < 4 ∨ leRead d c 4 < 4 →
      extraLoopF (d.length + 2) d c = some (.ok ([], c))) :=
  ⟨extraLoopF_isSome d (d.length + 2) c (by omega),
   fun bs p h => extraLoopF_ok_stop d (d.length + 2) c bs p h,
   fun hc h => extraLoopF_stop d c hc h⟩

/-- C7 witness: the loop theorem at the four-byte stream `[0,0,0,0]`
and cursor 0 — the zero size word stops the loop at once. -/
theorem c7_extradata_loop_termination_witness :
    (extraLoopF 6 [0, 0, 0, 0] 0).isSome ∧
    extraLoopF 6 [0, 0, 0, 0] 0 = some (.ok ([], 0)) :=
  ⟨(c7_extradata_loop_termination [0, 0, 0, 0] 0).1,
   (c7_extradata_loop_termination [0, 0, 0, 0] 0).2.2 (by decide)
     (Or.inr (by decide))⟩

/-! ### Unknown ExtraData signatures -/

theorem extraDataDispatch_unknown {sig : Nat}
    (h : knownExtraDataSig sig = false) (body : List Nat) :
    extraDataDispatch sig body = none := by
  simp only [knownExtraDataSig, decide_eq_false_iff_not] at h
  push_neg at h
  obtain ⟨h1, h2, h3, h4, h5, h6, h7, h8, h9, h10, h11⟩ := h
  simp only [extraDataDispatch, h1, h2, h3, h4, h5, h6, h7, h8, h9, h10, h11,
    if_false]

/-- C2 (amended): a well-delimited ExtraData block (at least 8 bytes
available, `8 ≤ block_size` and the whole block inside the input)
whose signature is outside the eleven known values makes
`ExtraData::unpack_from_slice` panic — the process aborts instead of
returning a recoverable `UnknownExtraData`-style error value, and no
lenient skip of `block_size − 8` bytes exists. -/
theorem c2_unknown_signature_panics (d : List Nat) (c : Nat)
    (hlen : c + 8 ≤ d.length) (hsz8 : 8 ≤ leRead d c 4)
    (hszle : c + leRead d c 4 ≤ d.length)
    (hunk : knownExtraDataSig (leRead d (c + 4) 4) = false) :
    extraDataUnpack d c = .panic := by
  simp only [extraDataUnpack]
  rw [if_neg (by omega), if_neg (by omega), if_neg (by omega),
    extraDataDispatch_unknown hunk]

/-- C2 witness: the amended theorem at a concrete 16-byte block with
the unknown signature `0xA000000C`. -/
theorem c2_unknown_signature_panics_witness :
    extraDataUnpack unknownSigBlockBytes2 0 = .panic :=
  c2_unknown_signature_panics unknownSigBlockBytes2 0 (by decide) (by decide)
    (by decide) (by decide)

/-! ### FILETIME -/

/-- C9: decoding a FILETIME from the 8-byte little-endian encoding of
any `t < 2^63` yields the raw value `t` back (`From<FileTime> for
u64` returns the stored word unchanged), and the associated calendar
time is the epoch 1601-01-01T00:00:00Z plus `t` ticks of 100 ns
(represented as `100·t` nanoseconds past the epoch). -/
theorem c9_filetime_roundtrip (t : Nat) (h : t < 2 ^ 63) :
    fileTimeRead (le64Bytes t) 0 = .ok (⟨t⟩, 8) ∧
    fileTimeToU64 ⟨t⟩ = t ∧
    fileTimeNanosSinceEpoch ⟨t⟩ = 100 * t := by
  have hle : leRead (le64Bytes t) 0 8 = t := by
    simp [le64Bytes, leRead, byteAt, List.getD]
    omega
  refine ⟨?_, rfl, rfl⟩
  unfold fileTimeRead readUInt
  rw [if_pos (by simp [le64Bytes])]
  simp [hle]

/-- C9 witness: the round-trip theorem at
`t = 116444736000000000` (1970-01-01T00:00:00Z). -/
theorem c9_filetime_roundtrip_witness :
    (116444736000000000 : Nat) < 2 ^ 63 ∧
    (fileTimeRead (le64Bytes 116444736000000000) 0 =
        .ok (⟨116444736000000000⟩, 8) ∧
      fileTimeToU64 ⟨116444736000000000⟩ = 116444736000000000 ∧
      fileTimeNanosSinceEpoch ⟨116444736000000000⟩ =
        100 * 116444736000000000) :=
  ⟨by norm_num, c9_filetime_roundtrip 116444736000000000 (by norm_num)⟩

/-! ### Header identity -/

/-- The 20-byte all-zero input: enough bytes for the size word and
the CLSID, and the CLSID mismatches. -/
def badClsidBytes : List Nat := List.replicate 20 0

/-- C1 (amended): the header codec of `src/header.rs` asserts only
the CLSID: every successful decode returns `link_clsid` equal to the
fixed constant, and any input carrying a different CLSID is rejected
(with a `binread` assert failure, not `NotAShellLink`); the
`header_size` word is decoded unchecked, so it is not guaranteed to
be `0x4C` on success (see the counterexample); and `ShellLink::open`
rejects every input shorter than `0x4C` bytes with
`NotAShellLink`. -/
theorem c1_header_identity_amended :
    (∀ (d : List Nat) (pos : Nat) (hh : ShellLinkHeader) (p' : Nat),
      shellLinkHeaderRead d pos = .ok (hh, p') → hh.link_clsid = CLSID) ∧
    (∀ (d : List Nat) (pos : Nat), pos + 20 ≤ d.length →
      leRead d (pos + 4) 16 ≠ CLSID →
      shellLinkHeaderRead d pos = .err .assertFail) ∧
    (∀ d : List Nat, d.length < 0x4C →
      shellLinkOpen d = .err .notAShellLink) := by
  refine ⟨?_, ?_, ?_⟩
  · intro d pos hh p' h
    unfold shellLinkHeaderRead at h
    repeat' split at h
    all_goals try exact Outcome.noConfusion h
    simp only [Outcome.ok.injEq, Prod.mk.injEq] at h
    obtain ⟨h1, rfl⟩ := h
    subst h1
    assumption
  · intro d pos h20 hne
    have h1 : readUInt 4 d pos = .ok (leRead d pos 4, pos + 4) := by
      unfold readUInt; rw [if_pos (by omega)]
    have h2 : readUInt 16 d (pos + 4) = .ok (leRead d (pos + 4) 16, pos + 4 + 16) := by
      unfold readUInt; rw [if_pos (by omega)]
    simp only [shellLinkHeaderRead, h1, h2, if_neg hne]
  · intro d hlen
    unfold shellLinkOpen
    rw [if_pos hlen]

/-- C1 witness: the amended theorem at a valid header (the clsid of
a successful decode is the constant), at a 20-byte zero input (CLSID
mismatch rejected) and at the empty input (`NotAShellLink` on short
inputs). -/
theorem c1_header_identity_witness :
    (⟨0x4C, CLSID, 0, 0, ⟨0⟩, ⟨0⟩, ⟨0⟩, 0, 0, 1, 0, 0⟩ :
        ShellLinkHeader).link_clsid = CLSID ∧
    shellLinkHeaderRead badClsidBytes 0 = .err .assertFail ∧
    shellLinkOpen [] = .err .notAShellLink :=
  ⟨c1_header_identity_amended.1 truncatedExtraInput 0 _ 66 (by decide),
   c1_header_identity_amended.2.1 badClsidBytes 0 (by decide) (by decide),
   c1_header_identity_amended.2.2 [] (by decide)⟩

/-! ### IdList boundary behaviour -/

theorem itemIDRead_zero {d : List Nat} {pos : Nat}
    (h0 : byteAt d pos = 0) (h1 : byteAt d (pos + 1) = 0)
    (hlen : pos + 2 ≤ d.length) :
    itemIDRead d pos = .ok (⟨0, []⟩, pos + 2) := by
  have hv : leRead d pos 2 = 0 := by simp [leRead, h0, h1]
  unfold itemIDRead readUInt
  rw [if_pos hlen]
  simp [hv]

theorem itemIDRead_smallSize {d : List Nat} {pos : Nat}
    (hlen : pos + 2 ≤ d.length)
    (hsz : leRead d pos 2 = 1 ∨ leRead d pos 2 = 2) :
    itemIDRead d pos = .err .assertFail := by
  unfold itemIDRead readUInt
  rw [if_pos hlen]
  rcases hsz with h | h <;> simp [h]

/-- C4 (amended): the `IdList` loop of `src/idlist.rs` behaves as
follows.  A zero budget returns an empty list at once, terminator or
not; a budget of exactly 1 fails (a `binread` assert failure — the
code has no `TruncatedIdList` error kind); a size-0 ItemID terminates
the list only when the remaining budget is exactly 2; when the budget
permits more bytes the size-0 item is appended and the loop continues
with the budget unchanged; an ItemID whose size field is 1 or 2 makes
the decode fail. -/
theorem c4_idlist_boundaries :
    (∀ (d : List Nat) (pos : Nat), idListLoop d 0 pos = .ok ([], pos)) ∧
    (∀ (d : List Nat) (pos : Nat), idListLoop d 1 pos = .err .assertFail) ∧
    (∀ (d : List Nat) (pos : Nat), byteAt d pos = 0 → byteAt d (pos + 1) = 0 →
      pos + 2 ≤ d.length → idListLoop d 2 pos = .ok ([], pos + 2)) ∧
    (∀ (d : List Nat) (pos n : Nat), 2 < n → n < 65536 →
      byteAt d pos = 0 → byteAt d (pos + 1) = 0 → pos + 2 ≤ d.length →
      idListLoop d n pos = consOutcome ⟨0, []⟩ (idListLoop d n (pos + 2))) ∧
    (∀ (d : List Nat) (pos n : Nat), 2 ≤ n → n < 65536 →
      pos + 2 ≤ d.length →
      (leRead d pos 2 = 1 ∨ leRead d pos 2 = 2) →
      idListLoop d n pos = .err .assertFail) := by
  refine ⟨?_, ?_, ?_, ?_, ?_⟩
  · intro d pos
    rw [idListLoop_eq]
    simp
  · intro d pos
    rw [idListLoop_eq]
    norm_num
  · intro d pos h0 h1 hlen
    rw [idListLoop_eq]
    simp [itemIDRead_zero h0 h1 hlen]
  · intro d pos n hn2 hn h0 h1 hlen
    rw [idListLoop_eq, if_neg (by omega : ¬n = 0), if_neg (by omega : ¬n < 2),
      itemIDRead_zero h0 h1 hlen]
    dsimp only
    rw [if_neg (by omega : ¬(n = 2 ∧ (0 : Nat) = 0)),
      show (n + 65536 - 0) % 65536 = n by omega]
    cases hres : idListLoop d n (pos + 2) with
    | ok v =>
      obtain ⟨rest, q⟩ := v
      rfl
    | err e => rfl
    | panic => rfl
  · intro d pos n hn2 hn hlen hsz
    rw [idListLoop_eq]
    rw [itemIDRead_smallSize hlen hsz]
    rw [if_neg (by omega), if_neg (by omega)]

/-- C4 witness: the amended theorem at concrete inputs for each of
its five clauses. -/
theorem c4_idlist_boundaries_witness :
    idListLoop [] 0 0 = .ok ([], 0) ∧
    idListLoop [9, 9] 1 0 = .err .assertFail ∧
    idListLoop [0, 0] 2 0 = .ok ([], 2) ∧
    idListLoop [0, 0, 9, 9] 4 0 =
      consOutcome ⟨0, []⟩ (idListLoop [0, 0, 9, 9] 4 2) ∧
    idListLoop [2, 0] 5 0 = .err .assertFail :=
  ⟨c4_idlist_boundaries.1 [] 0,
   c4_idlist_boundaries.2.1 [9, 9] 0,
   c4_idlist_boundaries.2.2.1 [0, 0] 0 (by decide) (by decide) (by decide),
   c4_idlist_boundaries.2.2.2.1 [0, 0, 9, 9] 0 4 (by decide) (by decide)
     (by decide) (by decide) (by decide),
   c4_idlist_boundaries.2.2.2.2 [2, 0] 0 5 (by decide) (by decide) (by decide)
     (by decide)⟩

/-! ### LinkInfo offset soundness and extent closure -/

theorem currentOffset_ok {pos B : Nat} (h : currentOffset pos = .ok B) :
    B = pos := by
  unfold currentOffset at h
  split at h
  · exact (Outcome.ok.inj h).symm
  · exact Outcome.noConfusion h

theorem linkInfoReadTail_ok {d : List Nat}
    {B size hsize fl vio lbo cnrlo cpso : Nat} {lbou cpsou : Option Nat}
    {info : LinkInfo} {p' : Nat}
    (h : linkInfoReadTail d B size hsize fl vio lbo cnrlo cpso lbou cpsou =
      .ok (info, p')) :
    info.link_info_size = size ∧ info.link_info_flags = fl ∧
    info.volume_id_offset = vio ∧ info.local_base_path_offset = lbo ∧
    info.common_network_relative_link_offset = cnrlo ∧
    info.common_path_suffix_offset = cpso ∧
    info.local_base_path_offset_unicode = lbou ∧
    info.common_path_suffix_offset_unicode = cpsou ∧
    p' = seekTo B size := by
  unfold linkInfoReadTail at h
  repeat' split at h
  all_goals try exact Outcome.noConfusion h
  simp only [Outcome.ok.injEq, Prod.mk.injEq] at h
  obtain ⟨h1, rfl⟩ := h
  subst h1
  exact ⟨rfl, rfl, rfl, rfl, rfl, rfl, rfl, rfl, rfl⟩

theorem linkInfoRead_ok_inv {d : List Nat} {pos : Nat} {info : LinkInfo}
    {p' : Nat} (h : linkInfoRead d pos = .ok (info, p')) :
    p' = seekTo pos info.link_info_size ∧
    (if flagVIDLBP info.link_info_flags then
      0 < info.volume_id_offset ∧ info.volume_id_offset < info.link_info_size
     else info.volume_id_offset = 0) ∧
    (if flagVIDLBP info.link_info_flags then
      0 < info.local_base_path_offset ∧
        info.local_base_path_offset < info.link_info_size
     else info.local_base_path_offset = 0) ∧
    (if flagCNRL info.link_info_flags then
      0 < info.common_network_relative_link_offset ∧
        info.common_network_relative_link_offset < info.link_info_size
     else info.common_network_relative_link_offset = 0) ∧
    info.common_path_suffix_offset < info.link_info_size ∧
    uOffAssert (flagVIDLBP info.link_info_flags) info.link_info_size
      info.local_base_path_offset_unicode = true ∧
    uOffAssert (flagCNRL info.link_info_flags) info.link_info_size
      info.common_path_suffix_offset_unicode = true := by
  unfold linkInfoRead at h
  split at h
  case h_2 => exact Outcome.noConfusion h
  case h_3 => exact Outcome.noConfusion h
  case h_1 B heqB =>
    have hB : B = pos := currentOffset_ok heqB
    subst hB
    repeat' split at h
    all_goals try exact Outcome.noConfusion h
    all_goals {
      obtain ⟨hsz, hfl, hvio, hlbo, hcnrlo, hcpso, hlbou, hcpsou, hp⟩ :=
        linkInfoReadTail_ok h
      rw [hsz, hfl, hvio, hlbo, hcnrlo, hcpso, hlbou, hcpsou]
      refine ⟨hp, ?_, ?_, ?_, ?_, ?_, ?_⟩ <;>
        first
          | assumption
          | (split <;> first | assumption | simp_all) }

/-- C3: on every successful LinkInfo decode the offsets satisfy the
§8 offset-soundness invariant (`offsetSound`): the three flag-gated
offsets are zero exactly when their owning flag is clear and
otherwise strictly between 0 and `link_info_size`, the common path
suffix offset is zero or strictly inside `link_info_size`, and each
Unicode-variant offset, when present, is strictly inside
`link_info_size` (the decoder rejects any input violating one of its
offset asserts, so no other value can be observed). -/
theorem c3_linkinfo_offset_soundness (d : List Nat) (pos : Nat)
    (info : LinkInfo) (p' : Nat) (h : linkInfoRead d pos = .ok (info, p')) :
    offsetSound info := by
  obtain ⟨-, hvio, hlbo, hcnrlo, hcpso, hlbou, hcpsou⟩ :=
    linkInfoRead_ok_inv h
  refine ⟨?_, ?_, ?_, ?_, ?_, ?_⟩
  · by_cases hb : flagVIDLBP info.link_info_flags
    · exact Or.inr (by simpa [hb] using hvio)
    · exact Or.inl ⟨by simpa [hb] using hvio, by simp [hb]⟩
  · by_cases hb : flagVIDLBP info.link_info_flags
    · exact Or.inr (by simpa [hb] using hlbo)
    · exact Or.inl ⟨by simpa [hb] using hlbo, by simp [hb]⟩
  · by_cases hb : flagCNRL info.link_info_flags
    · exact Or.inr (by simpa [hb] using hcnrlo)
    · exact Or.inl ⟨by simpa [hb] using hcnrlo, by simp [hb]⟩
  · rcases Nat.eq_zero_or_pos info.common_path_suffix_offset with h0 | hpos
    · exact Or.inl h0
    · exact Or.inr ⟨hpos, hcpso⟩
  · intro o ho
    rw [ho] at hlbou
    simp only [uOffAssert, Bool.and_eq_true, decide_eq_true_eq] at hlbou
    exact Or.inr ⟨hlbou.1.2, hlbou.2⟩
  · intro o ho
    rw [ho] at hcpsou
    simp only [uOffAssert, Bool.and_eq_true, decide_eq_true_eq] at hcpsou
    exact Or.inr ⟨hcpsou.1.2, hcpsou.2⟩

/-- The LinkInfo value decoded from `linkInfoGoodBytes`. -/
def linkInfoGoodValue : LinkInfo :=
  ⟨0, 30, 28, 0, 0, 0, 0, 28, none, none, none, none, none, [], none⟩

/-- C3 witness: the offset-soundness theorem at the concrete
successful decode of `linkInfoGoodBytes`. -/
theorem c3_linkinfo_offset_soundness_witness :
    offsetSound linkInfoGoodValue :=
  c3_linkinfo_offset_soundness linkInfoGoodBytes 0 linkInfoGoodValue 30
    (by decide)

/-- C5 (amended): after every successful LinkInfo decode that starts
at stream offset `B` and reads `link_info_size = L`, the cursor is at
`(B + L) mod 2^32` — equal to `B + L` whenever that sum fits in a
`u32`; the seek target is computed by a wrapping `u32` addition (see
the counterexample for an input where it wraps; a debug build aborts
there instead). -/
theorem c5_linkinfo_extent_closure (d : List Nat) (pos : Nat)
    (info : LinkInfo) (p' : Nat) (h : linkInfoRead d pos = .ok (info, p')) :
    p' = (pos + info.link_info_size) % 4294967296 :=
  (linkInfoRead_ok_inv h).1

/-- C5 witness: the extent-closure theorem at the concrete successful
decode of `linkInfoGoodBytes`, where the cursor lands at `0 + 30`. -/
theorem c5_linkinfo_extent_closure_witness :
    (30 : Nat) = (0 + linkInfoGoodValue.link_info_size) % 4294967296 :=
  c5_linkinfo_extent_closure linkInfoGoodBytes 0 linkInfoGoodValue 30
    (by decide)

/-! ### StringData flag correspondence -/

theorem stringDataSlot_ok {fb : Bool} {enc : StringEncoding} {d : List Nat}
    {pos : Nat} {o : Option (List Nat)} {p : Nat}
    (h : stringDataSlot fb enc d pos = .ok (o, p)) : o.isSome = fb := by
  unfold stringDataSlot at h
  split at h
  · next hb =>
    split at h
    case h_1 s p2 heq =>
      simp only [Outcome.ok.injEq, Prod.mk.injEq] at h
      obtain ⟨h1, -⟩ := h
      subst h1
      simp [hb]
    case h_2 => exact Outcome.noConfusion h
    case h_3 => exact Outcome.noConfusion h
  · next hb =>
    simp only [Outcome.ok.injEq, Prod.mk.injEq] at h
    obtain ⟨h1, -⟩ := h
    subst h1
    simp_all

/-- C6: on every successful StringData decode, each of the five slots
is present iff its `LinkFlags` bit is set (`HAS_NAME` = bit 2 through
`HAS_ICON_LOCATION` = bit 6, in the fixed order), and the encoding
every present slot is decoded with — `StringEncoding::from` — is
UTF-16LE exactly when `IS_UNICODE` (bit 7) is set and the
caller-supplied 8-bit code page otherwise. -/
theorem c6_stringdata_flag_correspondence (flags cp : Nat) (d : List Nat)
    (pos : Nat) (sd : StringData) (p' : Nat)
    (h : stringDataRead flags cp d pos = .ok (sd, p')) :
    sd.name_string.isSome = linkFlag flags 2 ∧
    sd.relative_path.isSome = linkFlag flags 3 ∧
    sd.working_dir.isSome = linkFlag flags 4 ∧
    sd.command_line_arguments.isSome = linkFlag flags 5 ∧
    sd.icon_location.isSome = linkFlag flags 6 ∧
    (linkFlag flags 7 = true → stringEncodingFrom flags cp = .unicode) ∧
    (linkFlag flags 7 = false → stringEncodingFrom flags cp = .codePage cp) := by
  simp only [stringDataRead] at h
  split at h
  case h_2 => exact Outcome.noConfusion h
  case h_3 => exact Outcome.noConfusion h
  case h_1 name p1 heq1 =>
    split at h
    case h_2 => exact Outcome.noConfusion h
    case h_3 => exact Outcome.noConfusion h
    case h_1 rel p2 heq2 =>
      split at h
      case h_2 => exact Outcome.noConfusion h
      case h_3 => exact Outcome.noConfusion h
      case h_1 wd p3 heq3 =>
        split at h
        case h_2 => exact Outcome.noConfusion h
        case h_3 => exact Outcome.noConfusion h
        case h_1 args p4 heq4 =>
          split at h
          case h_2 => exact Outcome.noConfusion h
          case h_3 => exact Outcome.noConfusion h
          case h_1 icon p5 heq5 =>
            simp only [Outcome.ok.injEq, Prod.mk.injEq] at h
            obtain ⟨h1, rfl⟩ := h
            subst h1
            refine ⟨stringDataSlot_ok heq1, stringDataSlot_ok heq2,
              stringDataSlot_ok heq3, stringDataSlot_ok heq4,
              stringDataSlot_ok heq5, ?_, ?_⟩
            · intro hu
              simp [stringEncodingFrom, hu]
            · intro hu
              simp [stringEncodingFrom, hu]

/-- The bytes of a one-slot StringData section: a UTF-16LE SizedString
of two code units, "Hi". -/
def stringDataGoodBytes : List Nat := [2, 0, 72, 0, 105, 0]

/-- The StringData value decoded from `stringDataGoodBytes` under
flags `HAS_NAME | IS_UNICODE`. -/
def stringDataGoodValue : StringData :=
  ⟨some [72, 105], none, none, none, none⟩

/-- C6 witness: the flag-correspondence theorem at the concrete
decode of `stringDataGoodBytes` with `link_flags = 0x84`
(`HAS_NAME | IS_UNICODE`) and code page 1252. -/
theorem c6_stringdata_flag_correspondence_witness :
    stringDataGoodValue.name_string.isSome = linkFlag 0x84 2 ∧
    stringDataGoodValue.relative_path.isSome = linkFlag 0x84 3 ∧
    stringDataGoodValue.working_dir.isSome = linkFlag 0x84 4 ∧
    stringDataGoodValue.command_line_arguments.isSome = linkFlag 0x84 5 ∧
    stringDataGoodValue.icon_location.isSome = linkFlag 0x84 6 ∧
    (linkFlag 0x84 7 = true → stringEncodingFrom 0x84 1252 = .unicode) ∧
    (linkFlag 0x84 7 = false →
      stringEncodingFrom 0x84 1252 = .codePage 1252) :=
  c6_stringdata_flag_correspondence 0x84 1252 stringDataGoodBytes 0
    stringDataGoodValue 6 (by decide)

end Lnk
